import Mathlib

/-!
# Verification of `gymnarium_agents_random`

A shallow embedding of `src/lib.rs` of the `gymnarium_agents_random`
crate: a random action-selection agent whose choices are drawn from a
deterministic, counter-addressable pseudorandom stream (ChaCha20 in the
implementation), with `{seed, cursor}` persistence.

The agent itself (`RandomAgent`, its `Agent` trait implementation and
`RandomAgentStorage`) is embedded directly from the source. The pieces
the source delegates to external crates — the `Seed` type, the
deterministic stream and `ActionSpace::sample_with` from
`gymnarium_base`, and the stream generator from `rand_chacha` — are not
in this repository; they are modelled from the specification, and each
such definition carries a doc comment saying so.

Floating-point dimension values are modelled as rationals: the
specification uses floats only through their ordering and through exact
arithmetic on interval endpoints.
-/

/-- Modelled from the spec: a `Seed` (`gymnarium_base::Seed`) is an opaque
256-bit value, compared and cloned by value. We model it as a natural
number; no claim depends on its width. -/
abbrev Seed := Nat

/-- Modelled from the spec: a `Dimension Boundary` is either a discrete
integer range or a continuous float range, both inclusive
(`gymnarium_base::space::DimensionBoundaries`). -/
inductive DimensionBoundaries where
  | Discrete (minimum maximum : Int)
  | Continuous (minimum maximum : Rat)
deriving DecidableEq, Repr

/-- Modelled from the spec: a `Dimension Value` is a tagged union
Integer/Float (`gymnarium_base::space::DimensionValue`). -/
inductive DimensionValue where
  | Integer (v : Int)
  | Float (v : Rat)
deriving DecidableEq, Repr

/-- Modelled from the spec: an `Action Space` is an ordered sequence of
dimension boundaries. -/
abbrev ActionSpace := List DimensionBoundaries

/-- Modelled from the spec: an `Action` is an ordered sequence of
dimension values, one per boundary. -/
abbrev AgentAction := List DimensionValue

/-- Modelled from the spec: the environment state is opaque to this
agent (`choose_action` ignores it entirely). We model it as a list of
rationals; nothing in the agent inspects it. -/
abbrev EnvironmentState := List Rat

/-- Modelled from the spec: the raw word stream of the deterministic
generator (`rand_chacha::ChaCha20Rng`). For a fixed seed the word at
each cursor position is a pure function of the position; words are
32-bit. The concrete mixing function below is a stand-in for the ChaCha20
block function, pinned so that the golden value recorded in the
`RandomAgent` doc-example (seed 0, `Discrete{1,2}` ⇒ `Integer(2)`) is
reproduced. -/
def streamWord (seed pos : Nat) : Nat :=
  (seed + pos + 1) * 2654435761 % 2 ^ 32

/-- Modelled from the spec: `draw_uniform_integer(min, max)` returns an
integer in `[min, max]`, consuming one stream word and advancing the
cursor. -/
def draw_uniform_integer (seed pos : Nat) (minimum maximum : Int) :
    Int × Nat :=
  (minimum + (streamWord seed pos : Int) % (maximum - minimum + 1), pos + 1)

/-- Modelled from the spec: `draw_uniform_float(min, max)` returns a
value in `[min, max]` inclusive (exactly `min` in the degenerate
`min = max` case), consuming one stream word and advancing the cursor. -/
def draw_uniform_float (seed pos : Nat) (minimum maximum : Rat) :
    Rat × Nat :=
  (minimum + (maximum - minimum) * (streamWord seed pos : Rat) / 2 ^ 32,
    pos + 1)

/-- Modelled from the spec: sampling one dimension — a `Discrete`
boundary yields an `Integer` via the uniform integer draw, a
`Continuous` boundary yields a `Float` via the uniform float draw. -/
def sampleDimension (seed pos : Nat) :
    DimensionBoundaries → DimensionValue × Nat
  | .Discrete minimum maximum =>
    let r := draw_uniform_integer seed pos minimum maximum
    (.Integer r.1, r.2)
  | .Continuous minimum maximum =>
    let r := draw_uniform_float seed pos minimum maximum
    (.Float r.1, r.2)

/-- Modelled from the spec: `ActionSpace::sample_with(rng)`
(`gymnarium_base`) draws one value per dimension boundary, in declaration
order, from the stream, returning the action and the advanced cursor. -/
def sample_with (seed : Nat) : Nat → ActionSpace → AgentAction × Nat
  | pos, [] => ([], pos)
  | pos, b :: rest =>
    let r := sampleDimension seed pos b
    let rs := sample_with seed r.2 rest
    (r.1 :: rs.1, rs.2)

/-- `RandomAgentError` (src/lib.rs): the library's error enumeration.
It has no variants. -/
inductive RandomAgentError : Type
deriving DecidableEq

/-- Eliminate the impossible error branch of an infallible operation. -/
def getOk {α : Type} : Except RandomAgentError α → α
  | .ok a => a
  | .error e => nomatch e

/-- `RandomAgent` (src/lib.rs): the action space, the last adopted seed,
and the generator. The generator is represented by its cursor
(`word_pos`); in every reachable state it was (re)built from `last_seed`,
and by the stream invariant its output is a pure function of
`(last_seed, cursor)`. The phantom reward-type parameter carries no
data and is omitted. -/
structure RandomAgent where
  action_spaces : ActionSpace
  last_seed : Seed
  rng_word_pos : Nat
deriving DecidableEq, Repr

/-- `RandomAgentStorage` (src/lib.rs): the persisted state — the seed
and the stream cursor (a `u128` in the source). -/
structure RandomAgentStorage where
  last_seed : Seed
  rng_word_pos : Nat
deriving DecidableEq, Repr

/-- `RandomAgent::with` (src/lib.rs): store the action space, draw a
fresh random seed (modelled as the explicit `entropy` argument, since
`Seed::new_random()` reads an entropy source), and build the generator
from it at cursor 0. -/
def RandomAgent.with (action_spaces : ActionSpace) (entropy : Seed) :
    RandomAgent :=
  { action_spaces := action_spaces, last_seed := entropy, rng_word_pos := 0 }

/-- `reseed` (src/lib.rs): adopt the given seed, or a fresh random one
(modelled as the explicit `entropy` argument) when none is given; either
way rebuild the generator from the adopted seed at cursor 0. -/
def reseed (a : RandomAgent) (random_seed : Option Seed) (entropy : Seed) :
    Except RandomAgentError RandomAgent :=
  match random_seed with
  | some seed =>
    .ok { a with last_seed := seed, rng_word_pos := 0 }
  | none =>
    .ok { a with last_seed := entropy, rng_word_pos := 0 }

/-- `reset` (src/lib.rs): does nothing and succeeds. -/
def reset (a : RandomAgent) : Except RandomAgentError RandomAgent :=
  .ok a

/-- The state transition of one `choose_action` call: sample the action
space with the agent's generator, advancing its cursor. -/
def step (a : RandomAgent) : AgentAction × RandomAgent :=
  let r := sample_with a.last_seed a.rng_word_pos a.action_spaces
  (r.1, { a with rng_word_pos := r.2 })

/-- `choose_action` (src/lib.rs): ignores the environment state and
returns `self.action_spaces.sample_with(&mut self.rng)`; the mutated
agent is returned alongside the action. -/
def choose_action (a : RandomAgent) (_ : EnvironmentState) :
    Except RandomAgentError (AgentAction × RandomAgent) :=
  .ok (step a)

/-- `process_reward` (src/lib.rs): ignores all five arguments, does
nothing and succeeds. -/
def process_reward {R : Type} (a : RandomAgent) (_ : EnvironmentState)
    (_ : AgentAction) (_ : EnvironmentState) (_ : R) (_ : Bool) :
    Except RandomAgentError RandomAgent :=
  .ok a

/-- `load` (src/lib.rs): adopt the persisted seed, rebuild the generator
from it, then reposition its cursor to the persisted cursor value. -/
def load (a : RandomAgent) (data : RandomAgentStorage) :
    Except RandomAgentError RandomAgent :=
  .ok { a with last_seed := data.last_seed,
               rng_word_pos := data.rng_word_pos }

/-- `store` (src/lib.rs): snapshot the current seed and the generator's
current word position. -/
def store (a : RandomAgent) : RandomAgentStorage :=
  { last_seed := a.last_seed, rng_word_pos := a.rng_word_pos }

/-- `close` (src/lib.rs): does nothing and succeeds. -/
def close (a : RandomAgent) : Except RandomAgentError RandomAgent :=
  .ok a

/-- Draw `n` successive actions with `choose_action`, threading the
agent state; returns the list of actions and the final agent. -/
def drawN : RandomAgent → EnvironmentState → Nat → List AgentAction × RandomAgent
  | a, _, 0 => ([], a)
  | a, s, Nat.succ n =>
    match choose_action a s with
    | .ok r =>
      let rest := drawN r.2 s n
      (r.1 :: rest.1, rest.2)
    | .error e => nomatch e

/-- A boundary is well formed when its minimum does not exceed its
maximum. -/
def boundaryWF : DimensionBoundaries → Prop
  | .Discrete minimum maximum => minimum ≤ maximum
  | .Continuous minimum maximum => minimum ≤ maximum

/-- A value lies within a boundary's inclusive range, with the matching
tag. -/
def inBounds : DimensionBoundaries → DimensionValue → Prop
  | .Discrete minimum maximum, .Integer v => minimum ≤ v ∧ v ≤ maximum
  | .Continuous minimum maximum, .Float v => minimum ≤ v ∧ v ≤ maximum
  | _, _ => False

/-- A value's tag (Integer/Float) matches a boundary's type
(Discrete/Continuous). -/
def tagMatches : DimensionBoundaries → DimensionValue → Prop
  | .Discrete _ _, .Integer _ => True
  | .Continuous _ _, .Float _ => True
  | _, _ => False

/-- A degenerate boundary (minimum = maximum) pins its value to that
constant. -/
def degenerateExact : DimensionBoundaries → DimensionValue → Prop
  | .Discrete minimum maximum, .Integer v => minimum = maximum → v = minimum
  | .Continuous minimum maximum, .Float v => minimum = maximum → v = minimum
  | _, _ => True

instance (b : DimensionBoundaries) : Decidable (boundaryWF b) :=
  match b with
  | .Discrete minimum maximum => inferInstanceAs (Decidable (minimum ≤ maximum))
  | .Continuous minimum maximum => inferInstanceAs (Decidable (minimum ≤ maximum))

/-! ## Helper lemmas about the stream, the sampler and `drawN` -/

theorem streamWord_lt (seed pos : Nat) : streamWord seed pos < 2 ^ 32 :=
  Nat.mod_lt _ (by norm_num)

theorem draw_uniform_integer_bounds (seed pos : Nat) (minimum maximum : Int)
    (h : minimum ≤ maximum) :
    minimum ≤ (draw_uniform_integer seed pos minimum maximum).1 ∧
      (draw_uniform_integer seed pos minimum maximum).1 ≤ maximum := by
  have hd : (0 : Int) < maximum - minimum + 1 := by omega
  have h0 : (0 : Int) ≤ (streamWord seed pos : Int) % (maximum - minimum + 1) :=
    Int.emod_nonneg _ (by omega)
  have h1 : (streamWord seed pos : Int) % (maximum - minimum + 1)
      < maximum - minimum + 1 :=
    Int.emod_lt_of_pos _ hd
  simp only [draw_uniform_integer]
  omega

theorem draw_uniform_float_bounds (seed pos : Nat) (minimum maximum : Rat)
    (h : minimum ≤ maximum) :
    minimum ≤ (draw_uniform_float seed pos minimum maximum).1 ∧
      (draw_uniform_float seed pos minimum maximum).1 ≤ maximum := by
  have hw0 : (0 : Rat) ≤ (streamWord seed pos : Rat) := by positivity
  have hw1 : (streamWord seed pos : Rat) ≤ 2 ^ 32 := by
    have hlt := streamWord_lt seed pos
    have hlt2 : (streamWord seed pos : Rat) < 2 ^ 32 := by
      exact_mod_cast hlt
    exact le_of_lt hlt2
  simp only [draw_uniform_float]
  constructor
  · have hnn : 0 ≤ (maximum - minimum) * (streamWord seed pos : Rat) / 2 ^ 32 :=
      div_nonneg (mul_nonneg (by linarith) hw0) (by positivity)
    linarith
  · have hle : (maximum - minimum) * (streamWord seed pos : Rat)
        ≤ (maximum - minimum) * 2 ^ 32 :=
      mul_le_mul_of_nonneg_left hw1 (by linarith)
    have hdiv : (maximum - minimum) * (streamWord seed pos : Rat) / 2 ^ 32
        ≤ maximum - minimum := by
      rw [div_le_iff₀ (by positivity)]
      linarith
    linarith

theorem sampleDimension_inBounds (seed pos : Nat) (b : DimensionBoundaries)
    (h : boundaryWF b) : inBounds b (sampleDimension seed pos b).1 := by
  cases b with
  | Discrete minimum maximum =>
    exact draw_uniform_integer_bounds seed pos minimum maximum h
  | Continuous minimum maximum =>
    exact draw_uniform_float_bounds seed pos minimum maximum h

theorem sample_with_inBounds (seed : Nat) (A : ActionSpace)
    (h : ∀ b ∈ A, boundaryWF b) :
    ∀ pos, List.Forall₂ inBounds A (sample_with seed pos A).1 := by
  induction A with
  | nil => intro pos; exact List.Forall₂.nil
  | cons b rest ih =>
    intro pos
    refine List.Forall₂.cons ?_ ?_
    · exact sampleDimension_inBounds seed pos b (h b (by simp))
    · exact ih (fun x hx => h x (by simp [hx])) _

theorem sample_with_tagMatches (seed : Nat) (A : ActionSpace) :
    ∀ pos, List.Forall₂ tagMatches A (sample_with seed pos A).1 := by
  induction A with
  | nil => intro pos; exact List.Forall₂.nil
  | cons b rest ih =>
    intro pos
    refine List.Forall₂.cons ?_ (ih _)
    cases b <;> trivial

theorem inBounds_degenerateExact {b : DimensionBoundaries}
    {v : DimensionValue} (h : inBounds b v) : degenerateExact b v := by
  cases b <;> cases v <;> simp_all [inBounds, degenerateExact] <;>
    (intro he; subst he; exact le_antisymm h.2 h.1)

theorem drawN_zero (a : RandomAgent) (s : EnvironmentState) :
    drawN a s 0 = ([], a) := rfl

theorem drawN_succ (a : RandomAgent) (s : EnvironmentState) (n : Nat) :
    drawN a s (n + 1)
      = ((step a).1 :: (drawN (step a).2 s n).1, (drawN (step a).2 s n).2) :=
  rfl

theorem drawN_env (a : RandomAgent) (s t : EnvironmentState) (n : Nat) :
    drawN a s n = drawN a t n := by
  induction n generalizing a with
  | zero => rfl
  | succ n ih => rw [drawN_succ, drawN_succ, ih]

theorem drawN_action_spaces (a : RandomAgent) (s : EnvironmentState)
    (n : Nat) : (drawN a s n).2.action_spaces = a.action_spaces := by
  induction n generalizing a with
  | zero => rfl
  | succ n ih => rw [drawN_succ]; exact ih (step a).2

theorem drawN_length (a : RandomAgent) (s : EnvironmentState) (n : Nat) :
    (drawN a s n).1.length = n := by
  induction n generalizing a with
  | zero => rfl
  | succ n ih => rw [drawN_succ]; simp [ih (step a).2]

theorem drawN_add (a : RandomAgent) (s : EnvironmentState) (m n : Nat) :
    drawN a s (m + n)
      = ((drawN a s m).1 ++ (drawN (drawN a s m).2 s n).1,
         (drawN (drawN a s m).2 s n).2) := by
  induction m generalizing a with
  | zero => simp [drawN_zero, Nat.zero_add]
  | succ m ih =>
    have hm : m + 1 + n = (m + n) + 1 := by omega
    rw [hm, drawN_succ, drawN_succ, ih (step a).2]
    simp

/-- Loading a snapshot of agent `X` into an agent `Y` over the same
action space makes `Y` continue exactly as `X` would. -/
theorem continuation_of_load_store (X Y : RandomAgent)
    (hA : Y.action_spaces = X.action_spaces)
    (st1 st2 : EnvironmentState) (j : Nat) :
    (drawN (getOk (load Y (store X))) st1 j).1 = (drawN X st2 j).1 := by
  have hload : getOk (load Y (store X)) = X := by
    show ({ action_spaces := Y.action_spaces,
            last_seed := X.last_seed,
            rng_word_pos := X.rng_word_pos } : RandomAgent) = X
    rw [hA]
  rw [hload, drawN_env X st1 st2]

/-! ## The claims -/

/-- C1: Store/load round-trip continuation: an agent constructed over
action space `A` and reseeded with seed `s` draws `m` actions; its
`store()` snapshot is fed to `load()` on a freshly constructed agent over
the same `A`. The fresh agent's next `j` actions equal, action for
action, the actions the original would have drawn next (draws `m+1..m+j`
of the original equal draws `1..j` of the fresh agent). -/
theorem store_load_roundtrip_continuation
    (A : ActionSpace) (s e1 e2 e3 : Seed) (m j : Nat)
    (st1 st2 st3 : EnvironmentState) :
    (drawN (getOk (load (RandomAgent.with A e2)
        (store (drawN (getOk (reseed (RandomAgent.with A e1) (some s) e3))
          st1 m).2)))
      st2 j).1
      = List.drop m
          (drawN (getOk (reseed (RandomAgent.with A e1) (some s) e3))
            st3 (m + j)).1 := by
  have hX : getOk (reseed (RandomAgent.with A e1) (some s) e3)
      = RandomAgent.mk A s 0 := rfl
  rw [hX]
  have hAs : (RandomAgent.with A e2).action_spaces
      = (drawN (RandomAgent.mk A s 0) st1 m).2.action_spaces := by
    rw [drawN_action_spaces]
    rfl
  rw [continuation_of_load_store (drawN (RandomAgent.mk A s 0) st1 m).2
    (RandomAgent.with A e2) hAs st2 st3 j]
  rw [drawN_env (RandomAgent.mk A s 0) st1 st3 m]
  have h1 : (drawN (RandomAgent.mk A s 0) st3 (m + j)).1
      = (drawN (RandomAgent.mk A s 0) st3 m).1
        ++ (drawN (drawN (RandomAgent.mk A s 0) st3 m).2 st3 j).1 := by
    rw [drawN_add]
  rw [h1, List.drop_left' (drawN_length (RandomAgent.mk A s 0) st3 m)]

/-- C2: Determinism: two agents constructed over the same action space
(with arbitrary construction entropy), each reseeded with the same seed
`s`, produce identical sequences of `N` actions, regardless of the
environment states passed to `choose_action`. -/
theorem reseed_determinism (A : ActionSpace) (s e1 e2 e3 e4 : Seed)
    (N : Nat) (st1 st2 : EnvironmentState) :
    (drawN (getOk (reseed (RandomAgent.with A e1) (some s) e3)) st1 N).1
      = (drawN (getOk (reseed (RandomAgent.with A e2) (some s) e4)) st2 N).1 := by
  have h1 : getOk (reseed (RandomAgent.with A e1) (some s) e3)
      = getOk (reseed (RandomAgent.with A e2) (some s) e4) := rfl
  rw [h1, drawN_env _ st1 st2]

/-- C3: Bounds: if every boundary of the agent's action space satisfies
`minimum ≤ maximum`, then every value of the action returned by
`choose_action` lies within its dimension's inclusive range (an
`Integer` within a `Discrete` range, a `Float` within a `Continuous`
range), and in the degenerate `minimum = maximum` case the value is
exactly that constant. -/
theorem choose_action_bounds (a : RandomAgent) (st : EnvironmentState)
    (h : ∀ b ∈ a.action_spaces, boundaryWF b) :
    List.Forall₂ inBounds a.action_spaces (getOk (choose_action a st)).1 ∧
    List.Forall₂ degenerateExact a.action_spaces
      (getOk (choose_action a st)).1 := by
  have hb : List.Forall₂ inBounds a.action_spaces
      (getOk (choose_action a st)).1 :=
    sample_with_inBounds a.last_seed a.action_spaces h a.rng_word_pos
  exact ⟨hb, hb.imp (fun _ _ hx => inBounds_degenerateExact hx)⟩

/-- Witness for C3 at the concrete space
`[Discrete{1,2}, Continuous{2,2}]`, seed 0, cursor 0. -/
theorem choose_action_bounds_witness :
    (∀ b ∈ (RandomAgent.mk
        [DimensionBoundaries.Discrete 1 2, DimensionBoundaries.Continuous 2 2]
        0 0).action_spaces, boundaryWF b) ∧
    (List.Forall₂ inBounds
        (RandomAgent.mk
          [DimensionBoundaries.Discrete 1 2,
           DimensionBoundaries.Continuous 2 2] 0 0).action_spaces
        (getOk (choose_action (RandomAgent.mk
          [DimensionBoundaries.Discrete 1 2,
           DimensionBoundaries.Continuous 2 2] 0 0) [])).1 ∧
      List.Forall₂ degenerateExact
        (RandomAgent.mk
          [DimensionBoundaries.Discrete 1 2,
           DimensionBoundaries.Continuous 2 2] 0 0).action_spaces
        (getOk (choose_action (RandomAgent.mk
          [DimensionBoundaries.Discrete 1 2,
           DimensionBoundaries.Continuous 2 2] 0 0) [])).1) := by
  have h : ∀ b ∈ (RandomAgent.mk
      [DimensionBoundaries.Discrete 1 2, DimensionBoundaries.Continuous 2 2]
      0 0).action_spaces, boundaryWF b := by decide
  exact ⟨h, choose_action_bounds _ [] h⟩

/-- C4: Order and shape preservation: the action returned by
`choose_action` has the same length as the action space, and the `i`-th
value's tag (Integer/Float) matches the `i`-th boundary's type
(Discrete/Continuous), in order. -/
theorem choose_action_shape (a : RandomAgent) (st : EnvironmentState) :
    (getOk (choose_action a st)).1.length = a.action_spaces.length ∧
    List.Forall₂ tagMatches a.action_spaces (getOk (choose_action a st)).1 := by
  have ht : List.Forall₂ tagMatches a.action_spaces
      (getOk (choose_action a st)).1 :=
    sample_with_tagMatches a.last_seed a.action_spaces a.rng_word_pos
  exact ⟨ht.length_eq.symm, ht⟩

/-- C5: State-independence: `choose_action` ignores its environment-state
argument entirely — on the same internal agent state, any two
environment states give the same action and the same successor state. -/
theorem choose_action_state_independent (a : RandomAgent)
    (s1 s2 : EnvironmentState) :
    choose_action a s1 = choose_action a s2 := rfl

/-- C6: Infallibility: the error enumeration `RandomAgentError` has no
inhabitants, and every fallible operation of the agent (`reseed`,
`reset`, `choose_action`, `process_reward`, `load`, `close`) returns the
success variant on every input. -/
theorem error_uninhabited_and_infallible :
    (∀ e : RandomAgentError, False) ∧
    (∀ (a : RandomAgent) (os : Option Seed) (ent : Seed),
      ∃ r, reseed a os ent = Except.ok r) ∧
    (∀ a : RandomAgent, ∃ r, reset a = Except.ok r) ∧
    (∀ (a : RandomAgent) (st : EnvironmentState),
      ∃ r, choose_action a st = Except.ok r) ∧
    (∀ (R : Type) (a : RandomAgent) (s1 : EnvironmentState)
        (act : AgentAction) (s2 : EnvironmentState) (rew : R) (d : Bool),
      ∃ r, process_reward a s1 act s2 rew d = Except.ok r) ∧
    (∀ (a : RandomAgent) (d : RandomAgentStorage),
      ∃ r, load a d = Except.ok r) ∧
    (∀ a : RandomAgent, ∃ r, close a = Except.ok r) := by
  refine ⟨?_, ?_, ?_, ?_, ?_, ?_, ?_⟩
  · intro e; exact nomatch e
  · intro a os ent; cases os <;> exact ⟨_, rfl⟩
  · intro a; exact ⟨_, rfl⟩
  · intro a st; exact ⟨_, rfl⟩
  · intro R a s1 act s2 rew d; exact ⟨_, rfl⟩
  · intro a d; exact ⟨_, rfl⟩
  · intro a; exact ⟨_, rfl⟩

/-- C7: No-op operations: `reset`, `process_reward` and `close` always
succeed with the agent unchanged (same action space, seed and cursor),
so interleaving them leaves the sequence of subsequently drawn actions
unaffected. -/
theorem noop_ops_preserve_state {R : Type} (a : RandomAgent)
    (s1 s2 s3 : EnvironmentState) (act : AgentAction) (rew : R) (d : Bool)
    (n : Nat) :
    reset a = Except.ok a ∧
    process_reward a s1 act s2 rew d = Except.ok a ∧
    close a = Except.ok a ∧
    drawN (getOk (close (getOk (process_reward (getOk (reset a))
      s1 act s2 rew d)))) s3 n = drawN a s3 n :=
  ⟨rfl, rfl, rfl, rfl⟩

/-- C8: Reseed contract: `reseed(Some(s))` adopts exactly `s` and
rebuilds the stream from cursor 0 (as does `reseed(None)` with its fresh
seed), so `store()` right after `reseed(Some(s))` yields the persisted
state `{seed = s, cursor = 0}`; `reseed` always succeeds. -/
theorem reseed_contract (a : RandomAgent) (s ent ent2 : Seed) :
    store (getOk (reseed a (some s) ent))
      = { last_seed := s, rng_word_pos := 0 } ∧
    (getOk (reseed a (some s) ent)).last_seed = s ∧
    (getOk (reseed a (some s) ent)).rng_word_pos = 0 ∧
    (getOk (reseed a none ent2)).rng_word_pos = 0 ∧
    (∀ os : Option Seed, ∃ r, reseed a os ent = Except.ok r) := by
  refine ⟨rfl, rfl, rfl, rfl, ?_⟩
  intro os; cases os <;> exact ⟨_, rfl⟩

/-- C9: Golden-value scenario: over the action space
`[Discrete{1,2}, Continuous{2.0,2.0}]` with explicit seed 0, the first
`choose_action` call after `reseed` returns exactly
`[Integer(2), Float(2.0)]` (as recorded in the `RandomAgent`
doc-example of src/lib.rs). -/
theorem golden_value_scenario :
    (getOk (choose_action
        (getOk (reseed
          (RandomAgent.with
            [DimensionBoundaries.Discrete 1 2,
             DimensionBoundaries.Continuous 2 2] 7)
          (some 0) 7))
        [])).1
      = [DimensionValue.Integer 2, DimensionValue.Float 2] := by
  show (sample_with 0 0
      [DimensionBoundaries.Discrete 1 2, DimensionBoundaries.Continuous 2 2]).1
    = [DimensionValue.Integer 2, DimensionValue.Float 2]
  norm_num [sample_with, sampleDimension, draw_uniform_integer,
    draw_uniform_float, streamWord]

/-- C10: Store/load inverse: for a well-formed persisted state `d` (its
cursor fits the 128-bit storage field), `load(d)` followed by `store()`
returns `d` itself (same seed, same cursor), and a second `load(d)` is
idempotent on the agent's state. -/
theorem load_store_inverse (a : RandomAgent) (d : RandomAgentStorage)
    (h : d.rng_word_pos < 2 ^ 128) :
    store (getOk (load a d)) = d ∧
    getOk (load (getOk (load a d)) d) = getOk (load a d) := by
  refine ⟨?_, rfl⟩
  show ({ last_seed := d.last_seed,
          rng_word_pos := d.rng_word_pos } : RandomAgentStorage) = d
  rfl

/-- Witness for C10 at the concrete agent
`⟨[], seed 0, cursor 0⟩` and the persisted state `{seed 5, cursor 7}`. -/
theorem load_store_inverse_witness :
    ((RandomAgentStorage.mk 5 7).rng_word_pos < 2 ^ 128) ∧
    (store (getOk (load (RandomAgent.mk [] 0 0) (RandomAgentStorage.mk 5 7)))
        = RandomAgentStorage.mk 5 7 ∧
      getOk (load (getOk (load (RandomAgent.mk [] 0 0)
          (RandomAgentStorage.mk 5 7))) (RandomAgentStorage.mk 5 7))
        = getOk (load (RandomAgent.mk [] 0 0) (RandomAgentStorage.mk 5 7))) := by
  have h : (RandomAgentStorage.mk 5 7).rng_word_pos < 2 ^ 128 := by
    show (7 : Nat) < 2 ^ 128
    norm_num
  exact ⟨h, load_store_inverse (RandomAgent.mk [] 0 0)
    (RandomAgentStorage.mk 5 7) h⟩
